import Mathlib

/-!
Verification development for the AcceptXMR payment gateway core.

The definitions below shallowly embed the Rust sources: `src/scanner.rs`
(the scan tick and its per-invoice fold), `src/subscriber.rs` (the
pull-based change stream), and `src/storage/stores/in_memory.rs` (the
in-memory invoice store).  Machine integers (`u64`, `u32`) are modelled
as `Nat`; the piconero accounting never approaches `2^64` and Rust's
checked arithmetic panics rather than wraps on overflow, so exact
naturals are the faithful reading.  Fallible Rust paths (`Result`,
early `return`) become `Except` values or explicit state passing.
-/

/-- Monero subaddress index `(major, minor)`, `src`'s `SubIndex` as used by
`scanner.rs` and `in_memory.rs` (field order and derived lexicographic
order as in the spec's data model). -/
structure SubIndex where
  major : Nat
  minor : Nat
deriving DecidableEq, Repr

/-- Modelled from the spec: the `Transfer` type is declared in the crate
root, which is absent from `src/`; the spec's data model gives it
`{ amount_piconero, height : Option u64, txid, output_index_within_tx }`.
`height = none` means the transfer is currently in the mempool.  Tx
hashes are modelled as naturals. -/
structure Transfer where
  amount : Nat
  height : Option Nat
  txid : Nat
  output_index : Nat
deriving DecidableEq, Repr

/-- Modelled from the spec: ordering predicate `older_than(h)` is
`height.is_some() && height < h`. -/
def Transfer.older_than (t : Transfer) (h : Nat) : Bool :=
  match t.height with
  | some ht => ht < h
  | none => false

/-- Modelled from the spec: a transfer is `newer_than(h)` when its height
is above `h`; mempool transfers (`height = none`) are the newest. -/
def Transfer.newer_than (t : Transfer) (h : Nat) : Bool :=
  match t.height with
  | some ht => h < ht
  | none => true

/-- Modelled from the spec: comparison of transfers by age, treating
mempool transfers (`height = none`) as the most recent. -/
def Transfer.cmp_by_age (t u : Transfer) : Ordering :=
  match t.height, u.height with
  | some a, some b => compare a b
  | some _, none => Ordering.lt
  | none, some _ => Ordering.gt
  | none, none => Ordering.eq

/-- The dedup identity of a transfer: its `(txid, output_index)` pair. -/
def transferKey (t : Transfer) : Nat × Nat :=
  (t.txid, t.output_index)

/-- Modelled from the spec: the `Payment` record folded by the scanner
(declared in the crate root, absent from `src/`).  Fields are exactly
those `scanner.rs` reads and writes: `index`, `amount_requested`,
`started_at` (creation height), `current_height`, `amount_paid`,
`paid_at` and `transfers`. -/
structure Payment where
  index : SubIndex
  amount_requested : Nat
  started_at : Nat
  current_height : Nat
  amount_paid : Nat
  paid_at : Option Nat
  transfers : List Transfer
deriving DecidableEq, Repr

/-- Sum of the amounts of a list of transfers (the spec's
`Σ transfers.amount`). -/
def sumAmounts (l : List Transfer) : Nat :=
  (l.map Transfer.amount).sum

/-- Embedding of Rust's `Iterator::min_by` over `(SubIndex, Transfer)`
pairs compared with `cmp_by_age` (`scanner.rs` line 101): the first
minimal element is kept. -/
def minByAge : List (SubIndex × Transfer) → Option (SubIndex × Transfer)
  | [] => none
  | x :: xs =>
    some (xs.foldl (fun acc y => if acc.2.cmp_by_age y.2 = Ordering.gt then y else acc) x)

/-- `deepest_update` as computed in `Scanner::scan` (`scanner.rs` lines
99-104): the minimal transfer height discovered this tick, or
`height + 1` when no transfer has a height. -/
def deepestUpdate (height : Nat) (transfers : List (SubIndex × Transfer)) : Nat :=
  match minByAge transfers with
  | none => height + 1
  | some (_, t) => t.height.getD (height + 1)

/-- One step of the loop at `scanner.rs` lines 147-153: the running
state is `(amount_paid, paid_at)`; add the transfer's amount, and while
`paid_at` is still `none` after the total has reached the requested
amount, assign it the transfer's height. -/
def paidStep (req : Nat) (acc : Nat × Option Nat) (t : Transfer) : Nat × Option Nat :=
  let ap := acc.1 + t.amount
  let pa := if ap ≥ req && acc.2.isNone then t.height else acc.2
  (ap, pa)

/-- The sum-and-first-crossing recomputation of `amount_paid` and
`paid_at` (`scanner.rs` lines 143-153): zero both out, then walk the
transfers in list order with `paidStep`. -/
def recomputeTotals (p : Payment) : Payment :=
  let r := p.transfers.foldl (paidStep p.amount_requested) (0, none)
  { p with amount_paid := r.1, paid_at := r.2 }

/-- The per-invoice fold of `Scanner::scan` (`scanner.rs` lines 122-158):
retain old transfers `older_than deepest`, append every discovered
`(sub_index, transfer)` whose index matches and which is
`newer_than started_at`, set `current_height`, and — only if the payment
changed — recompute `amount_paid` and `paid_at`. -/
def updatePayment (height deepest : Nat) (transfers : List (SubIndex × Transfer))
    (old : Payment) : Payment :=
  let retained := old.transfers.filter (fun t => t.older_than deepest)
  let appended :=
    retained ++ (transfers.filter
      (fun st => st.1 = old.index && st.2.newer_than old.started_at)).map Prod.snd
  let p := { old with transfers := appended, current_height := height }
  if p = old then old else recomputeTotals p

/-- Errors surfaced by the embedded operations (`AcceptXmrError` in the
crate root): failure to unblind an output amount, a closed subscription
channel, a receive timeout, and a storage/deserialization failure. -/
inductive AcceptXmrError where
  | unblind (s : SubIndex)
  | subscriberRecv
  | subscriberRecvTimeout
  | storage
deriving DecidableEq, Repr

/-- One tick of `Scanner::scan` (`scanner.rs` lines 66-179) after the two
concurrent scans have produced their results: if either `scan_blocks`
or `scan_txpool` failed the tick is skipped and the store is returned
untouched; otherwise the discovered transfers are combined
(blocks first, then txpool), `deepest_update` is computed, and every
stored payment is folded with `updatePayment` (payments the fold leaves
equal to their old value are not written back, which is the same store
content). -/
def scan (blocksRes txpoolRes : Except AcceptXmrError (List (SubIndex × Transfer)))
    (height : Nat) (store : List Payment) : List Payment :=
  match blocksRes with
  | Except.error _ => store
  | Except.ok blocksAmounts =>
    match txpoolRes with
    | Except.error _ => store
    | Except.ok txpoolAmounts =>
      let transfers := blocksAmounts ++ txpoolAmounts
      let deepest := deepestUpdate height transfers
      store.map (updatePayment height deepest transfers)

example : Transfer.older_than ⟨5, some 3, 0, 0⟩ 4 = true := by decide
example : deepestUpdate 9 [(⟨1, 1⟩, ⟨5, some 12, 7, 0⟩), (⟨1, 1⟩, ⟨5, none, 8, 0⟩)] = 12 := by
  decide

/-- An output of a transaction that the sub-key checker recognised as
owned (one element of the external `check_outputs_with` result): the
owning sub-index and the unblinded amount, `none` when unblinding the
amount failed. -/
structure OwnedOutput where
  sub_index : SubIndex
  amount : Option Nat
deriving DecidableEq, Repr

/-- A transaction as `scan_transactions` consumes it: its hash and the
owned outputs `check_outputs_with(sub_key_checker)` returns for it. -/
structure Tx where
  hash : Nat
  owned : List OwnedOutput
deriving DecidableEq, Repr

/-- The inner loop of `Scanner::scan_transactions` (`scanner.rs` lines
285-298) over one transaction's owned outputs.  `first` is
`transfers[0]`, the first owned output of the transaction, whose amount
the code reads for every tracked output; failure to unblind it aborts
the whole scan with an `Unblind` error. -/
def scanTxOutputs (tracked : List SubIndex) (first : OwnedOutput) :
    List OwnedOutput → Except AcceptXmrError (List (SubIndex × Nat))
  | [] => Except.ok []
  | t :: rest =>
    if tracked.contains t.sub_index then
      match first.amount with
      | some a => (scanTxOutputs tracked first rest).map (fun l => (t.sub_index, a) :: l)
      | none => Except.error (AcceptXmrError.unblind t.sub_index)
    else scanTxOutputs tracked first rest

/-- The per-transaction body of `scan_transactions`: iterate over the
owned outputs with `transfers[0]` in hand (no output, no iteration). -/
def scanOneTx (tracked : List SubIndex) (tx : Tx) :
    Except AcceptXmrError (List (SubIndex × Nat)) :=
  match tx.owned with
  | [] => Except.ok []
  | t0 :: _ => scanTxOutputs tracked t0 tx.owned

/-- `HashMap::entry(h).or_insert_with(Vec::new).push(v)`: append `v` to
the entry of key `h`, creating it when absent. -/
def mapPush (m : List (Nat × List (SubIndex × Nat))) (h : Nat) (v : SubIndex × Nat) :
    List (Nat × List (SubIndex × Nat)) :=
  match m with
  | [] => [(h, [v])]
  | (k, vs) :: rest =>
    if k = h then (k, vs ++ [v]) :: rest else (k, vs) :: mapPush rest h v

/-- `Scanner::scan_transactions` (`scanner.rs` lines 275-302): for every
transaction and every owned output whose sub-index is a tracked
payment, record `(sub_index, amount)` under the transaction's hash,
where `amount` is read from `transfers[0]` — the transaction's first
owned output. -/
def scan_transactions (tracked : List SubIndex) (txs : List Tx) :
    Except AcceptXmrError (List (Nat × List (SubIndex × Nat))) :=
  txs.foldlM
    (fun m tx => (scanOneTx tracked tx).map
      (fun found => found.foldl (fun acc v => mapPush acc tx.hash v) m))
    []

/-- A change event from the store's event stream (`sled::Event`): an
insertion carrying the written value's serialized bytes — modelled as
`some p` when the bytes deserialize to payment `p`, `none` when they
are malformed — or a removal. -/
inductive Event where
  | insert (value : Option Payment)
  | remove
deriving DecidableEq, Repr

/-- Modelled from the spec: `bincode::deserialize` of an update's bytes
(the `bincode` crate is external) — bytes either decode to a payment or
fail, surfacing a storage error. -/
def deserializePayment (value : Option Payment) : Except AcceptXmrError Payment :=
  match value with
  | some p => Except.ok p
  | none => Except.error AcceptXmrError.storage

/-- `Subscriber::recv` (`subscriber.rs` lines 24-32) over the queue of
incoming events: an insertion is deserialized and returned, a removal
is skipped by the recursive `self.recv()` call, and an exhausted
(closed) channel yields the `subscriberRecv` error. -/
def Subscriber.recv : List Event → Except AcceptXmrError Payment
  | [] => Except.error AcceptXmrError.subscriberRecv
  | Event.insert v :: _ => deserializePayment v
  | Event.remove :: rest => Subscriber.recv rest

/-- How `Subscriber::recv_timeout`'s wait can end when the queued events
run out: the timeout elapses, or the channel is disconnected. -/
inductive EndCause where
  | timedOut
  | disconnected
deriving DecidableEq, Repr

/-- `Subscriber::recv_timeout` (`subscriber.rs` lines 41-57) over the
events arriving before the deadline: insertions are deserialized and
returned, removals make the loop `continue`, and exhaustion maps
`Timeout` to `subscriberRecvTimeout` and `Disconnected` to
`subscriberRecv`. -/
def Subscriber.recv_timeout : List Event → EndCause → Except AcceptXmrError Payment
  | [], EndCause.timedOut => Except.error AcceptXmrError.subscriberRecvTimeout
  | [], EndCause.disconnected => Except.error AcceptXmrError.subscriberRecv
  | Event.insert v :: _, _ => deserializePayment v
  | Event.remove :: rest, e => Subscriber.recv_timeout rest e

/-- `Iterator::next` for `Subscriber` (`subscriber.rs` lines 60-73): a
zero-timeout poll that yields a deserialized payment only when an event
is immediately available and is an insertion; every other case
(removal, empty queue) yields `none`. -/
def Subscriber.next : List Event → Option (Except AcceptXmrError Payment)
  | Event.insert v :: _ => some (deserializePayment v)
  | _ => none

example : Subscriber.recv [Event.remove, Event.insert (some
  ⟨⟨1, 1⟩, 5, 0, 0, 0, none, []⟩)] = Except.ok ⟨⟨1, 1⟩, 5, 0, 0, 0, none, []⟩ := rfl

/-- Invoice identifier `(sub_index, creation_height)`, the store's primary
key (`InvoiceId` in the crate root, absent from `src/`; field layout per
the spec's data model). -/
structure InvoiceId where
  sub_index : SubIndex
  creation_height : Nat
deriving DecidableEq, Repr

/-- Strict lexicographic order on sub-indices `(major, minor)`, the
derived Rust `Ord`. -/
def SubIndex.lt (a b : SubIndex) : Bool :=
  a.major < b.major || (a.major = b.major && a.minor < b.minor)

/-- Lexicographic order on invoice ids (sub-index first, then creation
height), the derived Rust `Ord` the store's `BTreeMap` keys by. -/
def InvoiceId.le (a b : InvoiceId) : Bool :=
  SubIndex.lt a.sub_index b.sub_index ||
    (a.sub_index = b.sub_index && a.creation_height ≤ b.creation_height)

/-- Modelled from the spec: the `Invoice` record kept by the store (the
type is declared in the crate root, absent from `src/`); fields per the
spec's data model, with `index == id.sub_index` and
`creation_height == id.creation_height` kept inside `id`. -/
structure Invoice where
  id : InvoiceId
  amount_requested : Nat
  confirmations_required : Nat
  current_height : Nat
  transfers : List Transfer
deriving DecidableEq, Repr

/-- `BTreeMap::contains_key` over the store's contents, here an
association list of `(InvoiceId, Invoice)` entries (first binding
wins). -/
def InMemory.get (m : List (InvoiceId × Invoice)) (k : InvoiceId) : Option Invoice :=
  match m with
  | [] => none
  | (k2, v) :: rest => if k2 = k then some v else InMemory.get rest k

/-- `BTreeMap::insert` semantics: replace the value under an existing
key, or add a fresh binding. -/
def InMemory.mapInsert (m : List (InvoiceId × Invoice)) (k : InvoiceId) (v : Invoice) :
    List (InvoiceId × Invoice) :=
  match m with
  | [] => [(k, v)]
  | (k2, v2) :: rest =>
    if k2 = k then (k, v) :: rest else (k2, v2) :: InMemory.mapInsert rest k v

/-- The error type of the in-memory store (`in_memory.rs` lines 80-86). -/
inductive InMemoryStorageError where
  | duplicateEntry
deriving DecidableEq, Repr

/-- `InMemory::insert` (`in_memory.rs` lines 32-38): return
`DuplicateEntry` before touching the map when the invoice's id is
already present, otherwise add the invoice under its id.  The result
pairs the operation's return value with the store as the call leaves
it. -/
def InMemory.insert (m : List (InvoiceId × Invoice)) (invoice : Invoice) :
    Except InMemoryStorageError Unit × List (InvoiceId × Invoice) :=
  if (InMemory.get m invoice.id).isSome then
    (Except.error InMemoryStorageError.duplicateEntry, m)
  else
    (Except.ok (), InMemory.mapInsert m invoice.id invoice)

/-- `InMemory::contains_sub_index` (`in_memory.rs` lines 55-61): the
range scan `self.0.range(InvoiceId::new(sub_index, 0)..).next().is_some()`
— true exactly when the map holds some key that is `≥ (sub_index, 0)`
in the lexicographic key order (the range has no upper bound). -/
def InMemory.contains_sub_index (m : List (InvoiceId × Invoice)) (sub_index : SubIndex) : Bool :=
  m.any (fun kv => InvoiceId.le (InvoiceId.mk sub_index 0) kv.1)

/-- Modelled from the spec: `PaymentsDb::lowest_height` (absent from
`src/`) — the minimum creation height (`started_at`) across the live
payments held in the store, `none` when the store is empty. -/
def lowest_height : List Payment → Option Nat
  | [] => none
  | p :: rest =>
    match lowest_height rest with
    | none => some p.started_at
    | some m => some (Nat.min p.started_at m)

/-- The initial scan height picked by `Scanner::new` (`scanner.rs` lines
31-49): resume from `lowest_height()` when the store holds pending
payments, otherwise skip to the daemon's reported tip.  This value is
also what `Scanner::new` stores into the shared atomic height. -/
def scannerInitialHeight (store : List Payment) (daemonHeight : Nat) : Nat :=
  match lowest_height store with
  | some h => h
  | none => daemonHeight

example : InMemory.contains_sub_index [(⟨⟨2, 0⟩, 5⟩, ⟨⟨⟨2, 0⟩, 5⟩, 1, 1, 0, []⟩)] ⟨1, 0⟩
    = true := by decide
example : scannerInitialHeight [⟨⟨1, 1⟩, 5, 40, 0, 0, none, []⟩, ⟨⟨1, 2⟩, 5, 30, 0, 0, none, []⟩]
    99 = 30 := by decide

/-- The claim's reading of the spec formula for `paid_at_height`:
`min{ t.height | Σ_{t'≤t} t'.amount ≥ amount_requested }` — collect the
heights of the transfers whose cumulative sum up to and including them
reaches the requested amount, and take their minimum (`none` when no
transfer with a height qualifies).  Kept distinct from the code's
computation on purpose, to compare the two. -/
def qualifyingHeights (req : Nat) : Nat → List Transfer → List (Option Nat)
  | _, [] => []
  | acc, t :: ts =>
    let acc2 := acc + t.amount
    if req ≤ acc2 then t.height :: qualifyingHeights req acc2 ts
    else qualifyingHeights req acc2 ts

/-- Minimum qualifying height per the spec formula (see
`qualifyingHeights`). -/
def specPaidAtMin (req : Nat) (ts : List Transfer) : Option Nat :=
  ((qualifyingHeights req 0 ts).reduceOption).min?

/-- The height the code's loop actually lands on: the height of the
first transfer, in list order, whose cumulative sum reaches the
requested amount and whose height is present; qualifying transfers
still in the mempool (`height = none`) are passed over. -/
def paidAtFirst (req : Nat) : Nat → List Transfer → Option Nat
  | _, [] => none
  | acc, t :: ts =>
    let acc2 := acc + t.amount
    if req ≤ acc2 then
      match t.height with
      | some h => some h
      | none => paidAtFirst req acc2 ts
    else paidAtFirst req acc2 ts

/-- C4: if `scan_blocks` or `scan_txpool` returns an error during a tick,
the scanner performs no invoice write for that tick: the store after the
tick is exactly the store before it — the tick is skipped before any
writeback. -/
theorem scan_error_skips_tick (e : AcceptXmrError)
    (txpoolRes : Except AcceptXmrError (List (SubIndex × Transfer)))
    (blocksAmounts : List (SubIndex × Transfer)) (height : Nat) (store : List Payment) :
    scan (Except.error e) txpoolRes height store = store ∧
      scan (Except.ok blocksAmounts) (Except.error e) height store = store :=
  ⟨rfl, rfl⟩

/-- C7: the subscriber never makes a deletion event visible: `recv` and
`recv_timeout` skip a deletion and continue waiting on the following
events, while the non-blocking `Iterator::next` poll yields a payment
only when the available event is an insertion and yields nothing on a
deletion (or on an empty queue). -/
theorem subscriber_never_yields_deletions (evs : List Event) (v : Option Payment)
    (e : EndCause) :
    Subscriber.recv (Event.remove :: evs) = Subscriber.recv evs ∧
      Subscriber.recv_timeout (Event.remove :: evs) e = Subscriber.recv_timeout evs e ∧
      Subscriber.next (Event.remove :: evs) = none ∧
      Subscriber.next (Event.insert v :: evs) = some (deserializePayment v) ∧
      Subscriber.next [] = none :=
  ⟨rfl, rfl, rfl, rfl, rfl⟩

/-- C8 (amended): for every queue of incoming events and every way the
wait can end, `recv_timeout` is total and returns exactly one of: a
payment update, the timed-out error, the closed-channel error, or a
storage (deserialization) error. -/
theorem recv_timeout_total_outcomes (evs : List Event) (e : EndCause) :
    (∃ p, Subscriber.recv_timeout evs e = Except.ok p) ∨
      Subscriber.recv_timeout evs e = Except.error AcceptXmrError.subscriberRecvTimeout ∨
      Subscriber.recv_timeout evs e = Except.error AcceptXmrError.subscriberRecv ∨
      Subscriber.recv_timeout evs e = Except.error AcceptXmrError.storage := by
  induction evs with
  | nil =>
    cases e with
    | timedOut => exact Or.inr (Or.inl rfl)
    | disconnected => exact Or.inr (Or.inr (Or.inl rfl))
  | cons ev rest ih =>
    cases ev with
    | insert v =>
      cases v with
      | some p => exact Or.inl ⟨p, rfl⟩
      | none => exact Or.inr (Or.inr (Or.inr rfl))
    | remove => exact ih

/-- C8 counterexample: an insertion whose bytes fail to deserialize makes
`recv_timeout` return a storage error — an outcome beyond the
payment / timed-out / closed trichotomy the claim states. -/
theorem recv_timeout_storage_outcome :
    Subscriber.recv_timeout [Event.insert none] EndCause.timedOut
        = Except.error AcceptXmrError.storage ∧
      AcceptXmrError.storage ≠ AcceptXmrError.subscriberRecvTimeout ∧
      AcceptXmrError.storage ≠ AcceptXmrError.subscriberRecv :=
  ⟨rfl, by decide, by decide⟩

/-- C1: `scan_transactions` evaluated at the failing input — one
transaction (hash 42) with two tracked owned outputs of different
amounts (100 to sub-index `(1,1)`, 250 to sub-index `(1,2)`) — records
amount 100 for both outputs, because the code reads
`transfers[0].amount()` instead of the loop variable's own amount; the
second output's own amount, 250, is not what gets recorded. -/
theorem scan_transactions_records_first_amount :
    scan_transactions [⟨1, 1⟩, ⟨1, 2⟩]
        [⟨42, [⟨⟨1, 1⟩, some 100⟩, ⟨⟨1, 2⟩, some 250⟩]⟩] =
      Except.ok [(42, [(⟨1, 1⟩, 100), (⟨1, 2⟩, 100)])] ∧ (100 : Nat) ≠ 250 :=
  ⟨rfl, by decide⟩

/-- C3: `contains_sub_index` evaluated at the failing input — a store
whose only invoice has sub-index `(2,0)` — answers `true` for the query
`(1,0)` although no stored invoice has sub-index `(1,0)`: the range scan
has no upper bound, so any key at or above `((1,0), 0)` makes it
`true`. -/
theorem contains_sub_index_spurious_hit :
    InMemory.contains_sub_index [(⟨⟨2, 0⟩, 5⟩, ⟨⟨⟨2, 0⟩, 5⟩, 10, 2, 0, []⟩)] ⟨1, 0⟩ = true ∧
      (([(⟨⟨2, 0⟩, 5⟩, ⟨⟨⟨2, 0⟩, 5⟩, 10, 2, 0, []⟩)] : List (InvoiceId × Invoice)).map
          (fun kv => kv.1.sub_index)) = [⟨2, 0⟩] ∧
      (⟨2, 0⟩ : SubIndex) ≠ ⟨1, 0⟩ :=
  ⟨by decide, by decide, by decide⟩

theorem InMemory.get_mapInsert_self (m : List (InvoiceId × Invoice)) (k : InvoiceId)
    (v : Invoice) : InMemory.get (InMemory.mapInsert m k v) k = some v := by
  induction m with
  | nil => simp [InMemory.mapInsert, InMemory.get]
  | cons kv rest ih =>
    obtain ⟨k2, v2⟩ := kv
    by_cases h : k2 = k
    · simp [InMemory.mapInsert, InMemory.get, h]
    · simp [InMemory.mapInsert, InMemory.get, h, ih]

theorem InMemory.get_mapInsert_ne (m : List (InvoiceId × Invoice)) (k k2 : InvoiceId)
    (v : Invoice) (hne : k2 ≠ k) :
    InMemory.get (InMemory.mapInsert m k v) k2 = InMemory.get m k2 := by
  have hk2 : ¬(k = k2) := fun h => hne h.symm
  induction m with
  | nil => simp [InMemory.mapInsert, InMemory.get, hk2]
  | cons kv rest ih =>
    obtain ⟨ka, va⟩ := kv
    by_cases h : ka = k
    · subst h
      simp [InMemory.mapInsert, InMemory.get, hk2]
    · by_cases h2 : ka = k2
      · simp [InMemory.mapInsert, InMemory.get, h, h2, hne]
      · simp [InMemory.mapInsert, InMemory.get, h, h2, ih]

/-- C10: `InMemory::insert` with an id already present returns the
`DuplicateEntry` error and leaves the store exactly as it was (the
invoice stored under that id is not overwritten); with a fresh id it
adds the invoice under its id and leaves every other binding
untouched. -/
theorem inMemory_insert_duplicate_or_add (m : List (InvoiceId × Invoice))
    (invoice : Invoice) :
    ((InMemory.get m invoice.id).isSome = true →
        InMemory.insert m invoice = (Except.error InMemoryStorageError.duplicateEntry, m)) ∧
      ((InMemory.get m invoice.id).isSome = false →
        InMemory.insert m invoice = (Except.ok (), InMemory.mapInsert m invoice.id invoice) ∧
          InMemory.get (InMemory.mapInsert m invoice.id invoice) invoice.id = some invoice ∧
          ∀ k, k ≠ invoice.id →
            InMemory.get (InMemory.mapInsert m invoice.id invoice) k = InMemory.get m k) := by
  constructor
  · intro h
    simp [InMemory.insert, h]
  · intro h
    refine ⟨by simp [InMemory.insert, h], InMemory.get_mapInsert_self m invoice.id invoice,
      fun k hk => InMemory.get_mapInsert_ne m invoice.id k invoice hk⟩

/-- Witness for C10 at concrete stores: a duplicate insert (same id,
different contents) is rejected with the store intact, and an insert
into the empty store adds the invoice. -/
theorem inMemory_insert_duplicate_or_add_witness :
    (InMemory.get [(⟨⟨1, 1⟩, 5⟩, ⟨⟨⟨1, 1⟩, 5⟩, 10, 2, 0, []⟩)]
        (Invoice.mk ⟨⟨1, 1⟩, 5⟩ 99 2 0 []).id).isSome = true ∧
      InMemory.insert [(⟨⟨1, 1⟩, 5⟩, ⟨⟨⟨1, 1⟩, 5⟩, 10, 2, 0, []⟩)]
          (Invoice.mk ⟨⟨1, 1⟩, 5⟩ 99 2 0 []) =
        (Except.error InMemoryStorageError.duplicateEntry,
          [(⟨⟨1, 1⟩, 5⟩, ⟨⟨⟨1, 1⟩, 5⟩, 10, 2, 0, []⟩)]) ∧
      (InMemory.get [] (Invoice.mk ⟨⟨1, 1⟩, 5⟩ 10 2 0 []).id).isSome = false ∧
      InMemory.insert [] (Invoice.mk ⟨⟨1, 1⟩, 5⟩ 10 2 0 []) =
        (Except.ok (), InMemory.mapInsert [] ⟨⟨1, 1⟩, 5⟩ (Invoice.mk ⟨⟨1, 1⟩, 5⟩ 10 2 0 [])) :=
  ⟨by decide,
    (inMemory_insert_duplicate_or_add [(⟨⟨1, 1⟩, 5⟩, ⟨⟨⟨1, 1⟩, 5⟩, 10, 2, 0, []⟩)]
      (Invoice.mk ⟨⟨1, 1⟩, 5⟩ 99 2 0 [])).1 (by decide),
    by decide,
    ((inMemory_insert_duplicate_or_add [] (Invoice.mk ⟨⟨1, 1⟩, 5⟩ 10 2 0 [])).2 (by decide)).1⟩

theorem lowest_height_cons (p : Payment) (rest : List Payment) :
    ∃ h, lowest_height (p :: rest) = some h := by
  cases hr : lowest_height rest with
  | none => exact ⟨p.started_at, by simp [lowest_height, hr]⟩
  | some m => exact ⟨Nat.min p.started_at m, by simp [lowest_height, hr]⟩

/-- C9: at scanner construction the initial scan height — the value also
stored into the shared atomic height — is `lowest_height()` whenever
the store holds at least one live payment, and is the daemon's current
height when the store is empty. -/
theorem scanner_initial_height_resumes (store : List Payment) (daemonHeight : Nat) :
    (store ≠ [] → ∃ h, lowest_height store = some h ∧
        scannerInitialHeight store daemonHeight = h) ∧
      (store = [] → scannerInitialHeight store daemonHeight = daemonHeight) := by
  constructor
  · intro hne
    cases store with
    | nil => exact absurd rfl hne
    | cons p rest =>
      obtain ⟨h, hh⟩ := lowest_height_cons p rest
      exact ⟨h, hh, by simp [scannerInitialHeight, hh]⟩
  · intro he
    subst he
    rfl

/-- Witness for C9 at concrete stores: a store with two payments resumes
from the smaller creation height, and the empty store skips to the
daemon height. -/
theorem scanner_initial_height_resumes_witness :
    (([⟨⟨1, 1⟩, 5, 40, 0, 0, none, []⟩, ⟨⟨1, 2⟩, 5, 30, 0, 0, none, []⟩] : List Payment) ≠ [] ∧
        ∃ h, lowest_height [⟨⟨1, 1⟩, 5, 40, 0, 0, none, []⟩, ⟨⟨1, 2⟩, 5, 30, 0, 0, none, []⟩]
            = some h ∧
          scannerInitialHeight
            [⟨⟨1, 1⟩, 5, 40, 0, 0, none, []⟩, ⟨⟨1, 2⟩, 5, 30, 0, 0, none, []⟩] 99 = h) ∧
      (([] : List Payment) = [] ∧ scannerInitialHeight [] 99 = 99) :=
  ⟨⟨by decide,
      (scanner_initial_height_resumes
        [⟨⟨1, 1⟩, 5, 40, 0, 0, none, []⟩, ⟨⟨1, 2⟩, 5, 30, 0, 0, none, []⟩] 99).1 (by decide)⟩,
    rfl, (scanner_initial_height_resumes [] 99).2 rfl⟩

theorem foldl_paidStep_fst (req : Nat) (ts : List Transfer) (acc : Nat × Option Nat) :
    (ts.foldl (paidStep req) acc).1 = acc.1 + sumAmounts ts := by
  induction ts generalizing acc with
  | nil => simp [sumAmounts]
  | cons t ts ih =>
    simp only [List.foldl_cons, ih, paidStep, sumAmounts, List.map_cons, List.sum_cons]
    omega

/-- C6: after any tick, every payment in the store has
`amount_paid = Σ transfers.amount`: the invariant is preserved by `scan`
— unchanged payments keep it by hypothesis, and every written-back
payment has `amount_paid` recomputed from its transfers. -/
theorem scan_amount_paid_is_sum
    (blocksRes txpoolRes : Except AcceptXmrError (List (SubIndex × Transfer)))
    (height : Nat) (store : List Payment)
    (hinv : ∀ p ∈ store, p.amount_paid = sumAmounts p.transfers) :
    ∀ q ∈ scan blocksRes txpoolRes height store, q.amount_paid = sumAmounts q.transfers := by
  cases blocksRes with
  | error e => exact hinv
  | ok blocksAmounts =>
    cases txpoolRes with
    | error e => exact hinv
    | ok txpoolAmounts =>
      intro q hq
      simp only [scan, List.mem_map] at hq
      obtain ⟨p, hp, rfl⟩ := hq
      simp only [updatePayment]
      split
      · exact hinv p hp
      · simp only [recomputeTotals, foldl_paidStep_fst, sumAmounts, List.map_append,
          List.sum_append]
        omega

/-- Witness for C6: a concrete tick over a one-payment store whose
invariant holds; the folded payment again satisfies
`amount_paid = Σ transfers.amount`. -/
theorem scan_amount_paid_is_sum_witness :
    (∀ p ∈ ([⟨⟨1, 1⟩, 100, 1, 10, 0, none, []⟩] : List Payment),
        p.amount_paid = sumAmounts p.transfers) ∧
      (∀ q ∈ scan (Except.ok [(⟨1, 1⟩, ⟨5, some 12, 7, 0⟩)]) (Except.ok []) 12
          [⟨⟨1, 1⟩, 100, 1, 10, 0, none, []⟩], q.amount_paid = sumAmounts q.transfers) :=
  ⟨by decide,
    scan_amount_paid_is_sum (Except.ok [(⟨1, 1⟩, ⟨5, some 12, 7, 0⟩)]) (Except.ok []) 12
      [⟨⟨1, 1⟩, 100, 1, 10, 0, none, []⟩] (by decide)⟩

theorem foldl_paidStep_snd_some (req : Nat) (ts : List Transfer) (a h : Nat) :
    (ts.foldl (paidStep req) (a, some h)).2 = some h := by
  induction ts generalizing a with
  | nil => rfl
  | cons t ts ih =>
    simp only [List.foldl_cons, paidStep, Option.isNone_some, Bool.and_false, if_neg,
      Bool.false_eq_true, not_false_eq_true]
    exact ih (a + t.amount)

theorem foldl_paidStep_snd_none (req : Nat) (ts : List Transfer) (a : Nat) :
    (ts.foldl (paidStep req) (a, none)).2 = paidAtFirst req a ts := by
  induction ts generalizing a with
  | nil => rfl
  | cons t ts ih =>
    by_cases hc : req ≤ a + t.amount
    · cases hh : t.height with
      | some x =>
        simp [List.foldl_cons, paidStep, paidAtFirst, hc, hh, foldl_paidStep_snd_some]
      | none =>
        simp [List.foldl_cons, paidStep, paidAtFirst, hc, hh, ih]
    · simp [List.foldl_cons, paidStep, paidAtFirst, hc, ih]

/-- C5 (amended): every payment the tick's fold changes (and therefore
writes back) has `paid_at` equal to the height of the first transfer,
in list order, whose cumulative amount sum reaches `amount_requested`
and whose height is present (qualifying transfers still in the mempool
are passed over), or `none` when no such transfer exists; the value is
a function of the transfers list in its stored order, not of the
transfer multiset. -/
theorem updatePayment_paid_at_first_crossing (height : Nat)
    (transfers : List (SubIndex × Transfer)) (old : Payment) :
    updatePayment height (deepestUpdate height transfers) transfers old = old ∨
      (updatePayment height (deepestUpdate height transfers) transfers old).paid_at =
        paidAtFirst old.amount_requested 0
          (updatePayment height (deepestUpdate height transfers) transfers old).transfers := by
  simp only [updatePayment]
  split
  · exact Or.inl rfl
  · exact Or.inr (by
      simp only [recomputeTotals]
      exact foldl_paidStep_snd_none _ _ _)

/-- C5 counterexample: with `amount_requested = 10` and transfers
`[{amount 10, height 5}, {amount 1, height 2}]`, a tick that discovers
both transfers writes back `paid_at = some 5` (the first crossing
transfer's height) while the spec formula
`min{ t.height | Σ_{t'≤t} t'.amount ≥ amount_requested }` gives
`some 2`; moreover discovering `[{5, height 10}, {5, height 2}]` in the
two possible orders writes back `paid_at = some 2` and `paid_at =
some 10` respectively although the resulting transfer lists are
permutations of each other — the value is order-dependent. -/
theorem scan_paid_at_not_spec_min :
    scan (Except.ok [(⟨1, 1⟩, ⟨10, some 5, 1, 0⟩), (⟨1, 1⟩, ⟨1, some 2, 2, 0⟩)])
        (Except.ok []) 5 [⟨⟨1, 1⟩, 10, 0, 0, 0, none, []⟩] =
      [⟨⟨1, 1⟩, 10, 0, 5, 11, some 5, [⟨10, some 5, 1, 0⟩, ⟨1, some 2, 2, 0⟩]⟩] ∧
    specPaidAtMin 10 [⟨10, some 5, 1, 0⟩, ⟨1, some 2, 2, 0⟩] = some 2 ∧
    (some 5 : Option Nat) ≠ some 2 ∧
    scan (Except.ok [(⟨1, 1⟩, ⟨5, some 10, 1, 0⟩), (⟨1, 1⟩, ⟨5, some 2, 2, 0⟩)])
        (Except.ok []) 10 [⟨⟨1, 1⟩, 10, 0, 0, 0, none, []⟩] =
      [⟨⟨1, 1⟩, 10, 0, 10, 10, some 2, [⟨5, some 10, 1, 0⟩, ⟨5, some 2, 2, 0⟩]⟩] ∧
    scan (Except.ok [(⟨1, 1⟩, ⟨5, some 2, 2, 0⟩), (⟨1, 1⟩, ⟨5, some 10, 1, 0⟩)])
        (Except.ok []) 10 [⟨⟨1, 1⟩, 10, 0, 0, 0, none, []⟩] =
      [⟨⟨1, 1⟩, 10, 0, 10, 10, some 10, [⟨5, some 2, 2, 0⟩, ⟨5, some 10, 1, 0⟩]⟩] ∧
    ([⟨5, some 2, 2, 0⟩, ⟨5, some 10, 1, 0⟩] : List Transfer).Perm
      [⟨5, some 10, 1, 0⟩, ⟨5, some 2, 2, 0⟩] ∧
    (some 2 : Option Nat) ≠ some 10 :=
  ⟨by decide, by decide, by decide, by decide, by decide, by decide, by decide⟩

/-- C2 (amended): after a tick of the scanner's fold a payment's
transfers list has pairwise-distinct `(txid, output_index)` keys,
provided it had pairwise-distinct keys before the tick, the tick's
discovered transfers are pairwise distinct in that key, and no
discovered transfer shares its key with an old transfer that the fold
retains (one `older_than deepest_update`); the fold itself performs no
key-based deduplication, so these side conditions are what the caches
must supply. -/
theorem updatePayment_nodup_keys (height : Nat) (transfers : List (SubIndex × Transfer))
    (old : Payment)
    (h1 : (old.transfers.map transferKey).Nodup)
    (h2 : (transfers.map (fun st => transferKey st.2)).Nodup)
    (h3 : ∀ t ∈ old.transfers,
        t.older_than (deepestUpdate height transfers) = true →
        ∀ st ∈ transfers, transferKey t ≠ transferKey st.2) :
    ((updatePayment height (deepestUpdate height transfers) transfers old).transfers.map
        transferKey).Nodup := by
  simp only [updatePayment]
  split
  · exact h1
  · simp only [recomputeTotals]
    rw [List.map_append, List.nodup_append]
    refine ⟨?_, ?_, ?_⟩
    · exact ((List.filter_sublist _).map transferKey).nodup h1
    · rw [List.map_map]
      exact ((List.filter_sublist _).map (transferKey ∘ Prod.snd)).nodup h2
    · intro a ha hb
      obtain ⟨t, ht, rfl⟩ := List.mem_map.1 ha
      rw [List.map_map] at hb
      obtain ⟨st, hst, hkey⟩ := List.mem_map.1 hb
      obtain ⟨htmem, htold⟩ := List.mem_filter.1 ht
      exact h3 t htmem htold st (List.mem_of_mem_filter hst) hkey.symm

/-- Witness for C2 (amended) at a concrete tick: old transfers keyed
`(7,0)` at height 1, one discovered transfer keyed `(8,0)` at height 12;
all three side conditions hold and the folded list's keys are
pairwise distinct. -/
theorem updatePayment_nodup_keys_witness :
    (([⟨5, some 1, 7, 0⟩] : List Transfer).map transferKey).Nodup ∧
      (([(⟨1, 1⟩, ⟨5, some 12, 8, 0⟩)] : List (SubIndex × Transfer)).map
          (fun st => transferKey st.2)).Nodup ∧
      (∀ t ∈ ([⟨5, some 1, 7, 0⟩] : List Transfer),
        t.older_than (deepestUpdate 12 [(⟨1, 1⟩, ⟨5, some 12, 8, 0⟩)]) = true →
        ∀ st ∈ ([(⟨1, 1⟩, ⟨5, some 12, 8, 0⟩)] : List (SubIndex × Transfer)),
          transferKey t ≠ transferKey st.2) ∧
      ((updatePayment 12 (deepestUpdate 12 [(⟨1, 1⟩, ⟨5, some 12, 8, 0⟩)])
          [(⟨1, 1⟩, ⟨5, some 12, 8, 0⟩)]
          ⟨⟨1, 1⟩, 100, 0, 1, 5, none, [⟨5, some 1, 7, 0⟩]⟩).transfers.map
        transferKey).Nodup :=
  ⟨by decide, by decide, by decide,
    updatePayment_nodup_keys 12 [(⟨1, 1⟩, ⟨5, some 12, 8, 0⟩)]
      ⟨⟨1, 1⟩, 100, 0, 1, 5, none, [⟨5, some 1, 7, 0⟩]⟩
      (by decide) (by decide) (by decide)⟩

/-- C2 counterexample: a payment holding a transfer keyed `(7,0)` at
height 10, when the tick rediscovers the same `(txid, output_index)`
at height 12 (a transaction re-mined higher after a reorg), is written
back with both entries — the fold retains the old one (10 < 12 =
`deepest_update`) and appends the new one with no key-based dedup, so
the transfers list holds two entries with equal
`(txid, output_index)`. -/
theorem scan_duplicate_transfer_keys :
    scan (Except.ok [(⟨1, 1⟩, ⟨5, some 12, 7, 0⟩)]) (Except.ok []) 12
        [⟨⟨1, 1⟩, 100, 1, 10, 5, none, [⟨5, some 10, 7, 0⟩]⟩] =
      [⟨⟨1, 1⟩, 100, 1, 12, 10, none, [⟨5, some 10, 7, 0⟩, ⟨5, some 12, 7, 0⟩]⟩] ∧
      ¬ (([⟨5, some 10, 7, 0⟩, ⟨5, some 12, 7, 0⟩] : List Transfer).map transferKey).Nodup :=
  ⟨by decide, by decide⟩
